import Mathlib

/-!
Verification development for the pymeasure display widgets
(`pymeasure/display/curves.py`, `pymeasure/display/widgets/plot_frame.py`)
and the instrument drivers (`pymeasure/instruments/aimtti/TF930.py`,
`pymeasure/instruments/keithley/keithley6482.py`).

Numeric data (Python floats used for coordinates, thresholds and voltages)
is embedded as `ℚ`; the arithmetic the claims are about (half-up rounding,
linear normalization, range checks) is exact rational arithmetic in the
source's intent.  Fallible Python code (KeyError / IndexError / ValueError,
explicit `raise`) is embedded as `Except String`.
-/

/-- Python `int(q)` on a real number: truncation toward zero. -/
def intTrunc (q : ℚ) : ℤ := if 0 ≤ q then ⌊q⌋ else -⌊-q⌋

/-- Python `q % 1` for a rational `q`: the remainder has the sign of the
divisor, so this is the fractional part in `[0, 1)`. -/
def pyMod1 (q : ℚ) : ℚ := q - ⌊q⌋

/-- `ResultsImage.round_up` / `Results3DImage.round_up`
(`display/curves.py`): "Convenience function since numpy rounds to even".

    if x % 1 >= 0.5:
        return int(x) + 1
    else:
        return int(x)
-/
def round_up (x : ℚ) : ℤ := if 1/2 ≤ pyMod1 x then intTrunc x + 1 else intTrunc x

theorem intTrunc_of_nonneg (q : ℚ) (h : 0 ≤ q) : intTrunc q = ⌊q⌋ := by
  simp [intTrunc, h]

theorem intTrunc_intCast (n : ℤ) : intTrunc (n : ℚ) = n := by
  unfold intTrunc
  by_cases h : (0 : ℚ) ≤ (n : ℚ)
  · simp [h]
  · simp only [h, if_false]
    rw [show (-(n : ℚ)) = ((-n : ℤ) : ℚ) by push_cast; ring, Int.floor_intCast]
    ring

theorem pyMod1_eq_fract (q : ℚ) : pyMod1 q = Int.fract q := rfl

/-- The fractional-part test of `round_up` agrees with adding a half and
flooring. -/
theorem floor_add_half (q : ℚ) :
    ⌊q + 1/2⌋ = if 1/2 ≤ Int.fract q then ⌊q⌋ + 1 else ⌊q⌋ := by
  have hq : q + 1/2 = (Int.fract q + 1/2) + (⌊q⌋ : ℚ) := by
    unfold Int.fract; ring
  rw [hq, Int.floor_add_int]
  have h0 : 0 ≤ Int.fract q := Int.fract_nonneg q
  have h1 : Int.fract q < 1 := Int.fract_lt_one q
  by_cases h : 1/2 ≤ Int.fract q
  · have h2 : ⌊Int.fract q + 1/2⌋ = 1 := by
      rw [Int.floor_eq_iff]
      constructor <;> push_cast <;> linarith
    rw [h2, if_pos h]; omega
  · have h2 : ⌊Int.fract q + 1/2⌋ = 0 := by
      rw [Int.floor_eq_iff]
      constructor <;> push_cast <;> linarith
    rw [h2, if_neg h]; omega

/-- For a nonnegative argument (the only case a positive step and an in-range
coordinate produce), `round_up` is rounding half up. -/
theorem round_up_eq_floor_add_half (q : ℚ) (h : 0 ≤ q) :
    round_up q = ⌊q + 1/2⌋ := by
  rw [round_up, pyMod1_eq_fract, intTrunc_of_nonneg q h, floor_add_half]

/-- Rounding half up never overshoots the ceiling. -/
theorem floor_add_half_le_ceil (q : ℚ) : ⌊q + 1/2⌋ ≤ ⌈q⌉ := by
  have h1 : q ≤ (⌈q⌉ : ℚ) := Int.le_ceil q
  have : ⌊q + 1/2⌋ < ⌈q⌉ + 1 := by
    rw [Int.floor_lt]
    push_cast
    linarith
  omega

/-! ## The measurement snapshot

`Results.data` (the external results object) is a pandas DataFrame: a table
of named columns, one row per sample.  Column lookup on a missing name
raises a KeyError. -/

/-- An RGBA color, 0.0-1.0 floats as `pg.ColorMap.map(x, mode='float')`
returns them. -/
abbrev Color := ℚ × ℚ × ℚ × ℚ

/-- The current snapshot: named columns of samples. -/
abbrev Table := List (String × List ℚ)

/-- `data[name]`: column lookup, raising `KeyError` on a missing column. -/
def getColumn (t : Table) (name : String) : Except String (List ℚ) :=
  match t.find? (fun p => p.1 == name) with
  | some p => Except.ok p.2
  | none => Except.error ("KeyError: " ++ name)

/-- The number of rows of the frame (`data.iterrows()` yields this many
rows; in a DataFrame every column has this common length). -/
def nRows (t : Table) : ℕ :=
  match t with
  | [] => 0
  | c :: _ => c.2.length

/-- The rows of three columns, as `iterrows` visits them. -/
def zipRows (xs ys zs : List ℚ) : List (ℚ × ℚ × ℚ) := xs.zip (ys.zip zs)

/-- `data[x].to_numpy()[-1], data[y].to_numpy()[-1]`: the last sample of the
bound columns; `[-1]` of an empty array raises IndexError, a missing column
raises KeyError. -/
def lastSampleRead (t : Table) (x y : String) : Except String (ℚ × ℚ) :=
  match getColumn t x with
  | Except.error e => Except.error e
  | Except.ok xs =>
    match getColumn t y with
    | Except.error e => Except.error e
    | Except.ok ys =>
      match xs.getLast?, ys.getLast? with
      | some a, some b => Except.ok (a, b)
      | _, _ => Except.error "IndexError: index -1 is out of bounds"

/-! ## The pixel grid -/

/-- The 2-D pixel array, as a function from (x index, y index) to the stored
RGBA value (the source stores it as `img_data[yidx, xidx, :]`). -/
abbrev Img := ℤ → ℤ → Color

/-- 3-D pixel array (`img_data[zidx, yidx, xidx, :]`). -/
abbrev Img3 := ℤ → ℤ → ℤ → Color

/-- One pixel write `img_data[yidx, xidx, :] = v` at `c = (xidx, yidx)`. -/
def setPix (im : Img) (c : ℤ × ℤ) (v : Color) : Img :=
  fun i j => if i = c.1 ∧ j = c.2 then v else im i j

/-- One pixel write `img_data[zidx, yidx, xidx, :] = v`. -/
def setPix3 (im : Img3) (xi yi zi : ℤ) (v : Color) : Img3 :=
  fun i j k => if i = xi ∧ j = yi ∧ k = zi then v else im i j k

/-- `int(np.ceil((stop - start) / step)) + 1`: the per-axis pixel count
computed in `ResultsImage.__init__` and `Results3DImage.__init__`. -/
def npCeilSize (start stop step : ℚ) : ℤ :=
  intTrunc ((⌈(stop - start) / step⌉ : ℤ) : ℚ) + 1

/-! ## ResultsImage (`display/curves.py`) -/

structure ResultsImage where
  /-- bound column names `self.x`, `self.y`, `self.z` -/
  x : String
  y : String
  z : String
  xstart : ℚ
  xend : ℚ
  xstep : ℚ
  xsize : ℤ
  ystart : ℚ
  yend : ℚ
  ystep : ℚ
  ysize : ℤ
  img_data : Img
  /-- `self.cm` (`pg.colormap.get('viridis')`), kept abstract: an external
  fixed color ramp -/
  cm : ℚ → Color

/-- `ResultsImage.colormap`: "Return mapped color as 0.0-1.0 floats RGBA". -/
def ResultsImage.colormap (ri : ResultsImage) (v : ℚ) : Color := ri.cm v

/-- `ResultsImage.__init__`: sizes from the procedure's configured
start/end/step, `img_data = np.zeros((ysize, xsize, 4))`. -/
def mkResultsImage (x y z : String) (xstart xend xstep ystart yend ystep : ℚ)
    (cm : ℚ → Color) : ResultsImage :=
  { x := x, y := y, z := z
    xstart := xstart, xend := xend, xstep := xstep
    xsize := npCeilSize xstart xend xstep
    ystart := ystart, yend := yend, ystep := ystep
    ysize := npCeilSize ystart yend ystep
    img_data := fun _ _ => (0, 0, 0, 0)
    cm := cm }

/-- `ResultsImage.find_img_index`: each index defaults to the final pixel of
its axis and is recomputed by `round_up` only for an in-range coordinate. -/
def ResultsImage.find_img_index (ri : ResultsImage) (x y : ℚ) : ℤ × ℤ :=
  ( if ri.xstart ≤ x ∧ x ≤ ri.xend then round_up ((x - ri.xstart) / ri.xstep)
    else ri.xsize - 1,
    if ri.ystart ≤ y ∧ y ≤ ri.yend then round_up ((y - ri.ystart) / ri.ystep)
    else ri.ysize - 1 )

/-- The last element of a list satisfying `p` (the pixel's last writer). -/
def lastHit (p : α → Bool) (l : List α) : Option α :=
  l.foldl (fun acc a => if p a then some a else acc) none

/-- The image loop of `ResultsImage.update_data`:
`img_data[yidx, xidx, :] = colormap((row[z] - zmin) / (zmax - zmin))`
for each row, in order. -/
def paintRows (ri : ResultsImage) (zmin zmax : ℚ) (rows : List (ℚ × ℚ × ℚ))
    (img : Img) : Img :=
  rows.foldl
    (fun im r =>
      setPix im (ri.find_img_index r.1 r.2.1)
        (ri.colormap ((r.2.2 - zmin) / (zmax - zmin))))
    img

/-- The pre-emit part of `ResultsImage.update_data`: `zmin = data[z].min()`,
`zmax = data[z].max()` (KeyError on a missing `z` column), then the row
loop.  `row[self.x]` / `row[self.y]` raise on the first iteration exactly
when the column is missing, so the lookup is hoisted out of the loop; with
zero rows the loop body never runs (and the NaN min/max of an empty column
is never used, modelled by a default of 0). -/
def ResultsImage.refresh_pixels (ri : ResultsImage) (data : Table) :
    Except String Img :=
  match getColumn data ri.z with
  | Except.error e => Except.error e
  | Except.ok zs =>
    if nRows data = 0 then Except.ok ri.img_data
    else
      match getColumn data ri.x with
      | Except.error e => Except.error e
      | Except.ok xs =>
        match getColumn data ri.y with
        | Except.error e => Except.error e
        | Except.ok ys =>
          Except.ok
            (paintRows ri ((zs.min?).getD 0) ((zs.max?).getD 0)
              (zipRows xs ys zs) ri.img_data)

/-- The final-point emit of `update_data`: the last (x, y) sample inside
`try`, with any exception caught, logged and replaced by `emit(0, 0)`. -/
def emitted_of (data : Table) (x y : String) : ℚ × ℚ :=
  match lastSampleRead data x y with
  | Except.ok p => p
  | Except.error _ => (0, 0)

/-- `ResultsImage.update_data`: recompute the pixel array from the current
snapshot, then emit `dataUpdated` with the last sample (or `(0, 0)` when
reading it raised).  Returns the updated widget and the emitted pair. -/
def ResultsImage.update_data (ri : ResultsImage) (data : Table) :
    Except String (ResultsImage × (ℚ × ℚ)) :=
  match ri.refresh_pixels data with
  | Except.error e => Except.error e
  | Except.ok img2 =>
    Except.ok ({ ri with img_data := img2 }, emitted_of data ri.x ri.y)

/-! ## Results3DImage (`display/curves.py`) -/

structure Results3DImage where
  /-- bound column names `self.var`, `self.x`, `self.y`, `self.z` -/
  var : String
  x : String
  y : String
  z : String
  xstart : ℚ
  xend : ℚ
  xstep : ℚ
  xsize : ℤ
  ystart : ℚ
  yend : ℚ
  ystep : ℚ
  ysize : ℤ
  zstart : ℚ
  zend : ℚ
  zstep : ℚ
  zsize : ℤ
  shown_zidx : ℤ
  img_data : Img3
  cm : ℚ → Color

def Results3DImage.colormap (ri : Results3DImage) (v : ℚ) : Color := ri.cm v

/-- `Results3DImage.__init__`: three axis sizes from the configured
start/end/step, `img_data = np.zeros((zsize, ysize, xsize, 4))`,
`shown_zidx = 0`. -/
def mkResults3DImage (var x y z : String)
    (xstart xend xstep ystart yend ystep zstart zend zstep : ℚ)
    (cm : ℚ → Color) : Results3DImage :=
  { var := var, x := x, y := y, z := z
    xstart := xstart, xend := xend, xstep := xstep
    xsize := npCeilSize xstart xend xstep
    ystart := ystart, yend := yend, ystep := ystep
    ysize := npCeilSize ystart yend ystep
    zstart := zstart, zend := zend, zstep := zstep
    zsize := npCeilSize zstart zend zstep
    shown_zidx := 0
    img_data := fun _ _ _ => (0, 0, 0, 0)
    cm := cm }

/-- `Results3DImage.find_img_index`: like the 2-D version, for three axes. -/
def Results3DImage.find_img_index (ri : Results3DImage) (x y z : ℚ) :
    ℤ × ℤ × ℤ :=
  ( if ri.xstart ≤ x ∧ x ≤ ri.xend then round_up ((x - ri.xstart) / ri.xstep)
    else ri.xsize - 1,
    if ri.ystart ≤ y ∧ y ≤ ri.yend then round_up ((y - ri.ystart) / ri.ystep)
    else ri.ysize - 1,
    if ri.zstart ≤ z ∧ z ≤ ri.zend then round_up ((z - ri.zstart) / ri.zstep)
    else ri.zsize - 1 )

/-- Elements of `l` at indices 0, k, 2k, ... (the `::k` of a numpy slice). -/
def everyNth (l : List ℚ) (k : ℕ) : List ℚ :=
  (l.enum.filter (fun p => p.1 % k = 0)).map Prod.snd

/-- A numpy strided slice `a[start::stride]`.  A negative start counts from
the end (clamped at 0).  A zero or negative stride is outside what the
widget's configurations produce and is not modelled. -/
def pyStrideSlice (l : List ℚ) (start stride : ℤ) : Except String (List ℚ) :=
  if stride ≤ 0 then Except.error "slice stride not modelled"
  else
    let s : ℕ := if 0 ≤ start then start.toNat else ((l.length : ℤ) + start).toNat
    Except.ok (everyNth (l.drop s) stride.toNat)

/-- The nested `var_color(v, zidx)` of `Results3DImage.update_data`:
min/max of the z-slice `data[var].to_numpy()[zidx::zsize]` (an empty slice
makes numpy's reduction raise ValueError), then the color ramp on the
normalized value. -/
def Results3DImage.var_color (ri : Results3DImage) (vs : List ℚ) (zidx : ℤ)
    (v : ℚ) : Except String Color :=
  match pyStrideSlice vs zidx ri.zsize with
  | Except.error e => Except.error e
  | Except.ok sl =>
    match sl.min?, sl.max? with
    | some mn, some mx => Except.ok (ri.cm ((v - mn) / (mx - mn)))
    | _, _ => Except.error "ValueError: zero-size array reduction"

/-- The row loop of `Results3DImage.update_data`:
`img_data[zidx, yidx, xidx, :] = var_color(row[var], zidx)`. -/
def paintRows3 (ri : Results3DImage) (vs : List ℚ)
    (rows : List (ℚ × ℚ × ℚ × ℚ)) (img : Img3) : Except String Img3 :=
  rows.foldlM
    (fun im r =>
      match ri.find_img_index r.1 r.2.1 r.2.2.1 with
      | (xi, yi, zi) =>
        match ri.var_color vs zi r.2.2.2 with
        | Except.error e => Except.error e
        | Except.ok c => Except.ok (setPix3 im xi yi zi c))
    img

/-- The pre-emit part of `Results3DImage.update_data` (the row loop; per-row
column lookups hoisted as in the 2-D case; with zero rows nothing runs). -/
def Results3DImage.refresh_pixels (ri : Results3DImage) (data : Table) :
    Except String Img3 :=
  if nRows data = 0 then Except.ok ri.img_data
  else
    match getColumn data ri.x with
    | Except.error e => Except.error e
    | Except.ok xs =>
      match getColumn data ri.y with
      | Except.error e => Except.error e
      | Except.ok ys =>
        match getColumn data ri.z with
        | Except.error e => Except.error e
        | Except.ok zs =>
          match getColumn data ri.var with
          | Except.error e => Except.error e
          | Except.ok vs =>
            paintRows3 ri vs (xs.zip (ys.zip (zs.zip vs))) ri.img_data

/-- `Results3DImage.update_data`: repaint, then the guarded final-point
emit, exactly as in the 2-D widget. -/
def Results3DImage.update_data (ri : Results3DImage) (data : Table) :
    Except String (Results3DImage × (ℚ × ℚ)) :=
  match ri.refresh_pixels data with
  | Except.error e => Except.error e
  | Except.ok img2 =>
    Except.ok ({ ri with img_data := img2 }, emitted_of data ri.x ri.y)

/-! ## ResultsCurve (`display/curves.py`) -/

/-- The external results object: it owns the snapshot.  `reload()` re-reads
the backing file; its effect is kept abstract (a function parameter below). -/
structure Results where
  data : Table
deriving DecidableEq

structure ResultsCurve where
  x : String
  y : String
  force_reload : Bool
  /-- the curve's current `setData` payload -/
  shown : List ℚ × List ℚ
deriving DecidableEq

/-- `ResultsCurve.update_data`: optionally `results.reload()`, take the
current snapshot, and `setData(data[x], data[y])` — the complete columns.
`reload` is the external `Results.reload`, passed in abstractly. -/
def ResultsCurve.update_data (reload : Results → Results) (c : ResultsCurve)
    (res : Results) : Except String (ResultsCurve × Results) :=
  match getColumn (if c.force_reload then reload res else res).data c.x with
  | Except.error e => Except.error e
  | Except.ok xs =>
    match getColumn (if c.force_reload then reload res else res).data c.y with
    | Except.error e => Except.error e
    | Except.ok ys =>
      Except.ok ({ c with shown := (xs, ys) },
        if c.force_reload then reload res else res)

/-! ## BufferCurve (`display/curves.py`) -/

structure BufferCurve where
  /-- `self._buffer`: `None` until `prepare` runs.  `np.empty` leaves the
  contents uninitialized; they are never displayed before being written, so
  they are modelled as zeros. -/
  buffer : Option (Array (ℚ × ℚ))
  /-- `self._ptr` (a Python int, never negative here) -/
  ptr : ℕ
  /-- the curve's current `setData` payload -/
  shown : List (ℚ × ℚ)
deriving DecidableEq

/-- `BufferCurve.__init__`: `self._buffer = None`. -/
def initBufferCurve : BufferCurve := { buffer := none, ptr := 0, shown := [] }

/-- `BufferCurve.prepare(size)`: allocate the buffer, reset the pointer. -/
def BufferCurve.prepare (c : BufferCurve) (size : ℕ) : BufferCurve :=
  { c with buffer := some (Array.mkArray size (0, 0)), ptr := 0 }

/-- `BufferCurve.append(x, y)`: raise when unprepared or full; otherwise
write at `_ptr`, display `buffer[:_ptr]` (the prefix before the new point),
then increment `_ptr`.  The first component is the raised exception, the
second the (unchanged, on a raise) widget state. -/
def BufferCurve.append (c : BufferCurve) (x y : ℚ) :
    Except String Unit × BufferCurve :=
  match c.buffer with
  | none => (Except.error "BufferCurve buffer must be prepared", c)
  | some buf =>
    if h : buf.size ≤ c.ptr then (Except.error "BufferCurve overflow", c)
    else
      let buf2 := buf.set ⟨c.ptr, Nat.lt_of_not_le h⟩ (x, y)
      (Except.ok (),
        { buffer := some buf2, ptr := c.ptr + 1,
          shown := buf2.toList.take c.ptr })

/-- A client call sequence against one `BufferCurve`. -/
inductive BufOp where
  | prepare : ℕ → BufOp
  | append : ℚ → ℚ → BufOp
deriving DecidableEq

def runOp (c : BufferCurve) : BufOp → BufferCurve
  | BufOp.prepare n => c.prepare n
  | BufOp.append x y => (c.append x y).2

def runOps (c : BufferCurve) (ops : List BufOp) : BufferCurve :=
  ops.foldl runOp c

/-- The buffer's capacity (0 while unprepared, when `ptr` is still 0). -/
def bufSize (c : BufferCurve) : ℕ :=
  match c.buffer with
  | some b => b.size
  | none => 0

/-! ## Instrument property bindings

The property declarations (command strings, validators and value sets) live
in `instruments/aimtti/TF930.py` and `instruments/keithley/keithley6482.py`;
the machinery they instantiate (`Instrument.control` and the validators
module) is part of pymeasure but outside the staged sources, so it is
modelled from the spec. -/

/-- Modelled from the spec: `strict_range` (pymeasure/instruments/validators,
not under src/) — a value-range validator that accepts a value inside the
closed range spanned by the `values` pair and raises a ValueError otherwise,
returning the value unchanged when it passes. -/
def strict_range (value lo hi : ℚ) : Except String ℚ :=
  if lo ≤ value ∧ value ≤ hi then Except.ok value
  else Except.error "ValueError: value not in range"

/-- Modelled from the spec: `strict_discrete_set` — an enumeration validator
that accepts exactly the members of the discrete value set. -/
def strict_discrete_set (value : ℚ) (values : List ℚ) : Except String ℚ :=
  if value ∈ values then Except.ok value
  else Except.error "ValueError: value not in discrete set"

/-- Python `range(lo, hi)` (step 1) as its list of values. -/
def pyRange (lo hi : ℤ) : List ℚ :=
  (List.range (hi - lo).toNat).map (fun (n : ℕ) => ((lo + (n : ℤ) : ℤ) : ℚ))

/-- `TF930.threshold_ac`: `strict_discrete_set` over `range(-60, 61)`. -/
def TF930.threshold_ac_validator (v : ℚ) : Except String ℚ :=
  strict_discrete_set v (pyRange (-60) 61)

/-- `TF930.threshold_dc`: `strict_discrete_set` over `range(-300, 2101)`. -/
def TF930.threshold_dc_validator (v : ℚ) : Except String ℚ :=
  strict_discrete_set v (pyRange (-300) 2101)

/-- `Keithley6482Chnanel.voltage`: `strict_range` over `(-30, 30)`. -/
def Keithley6482Chnanel.voltage_validator (v : ℚ) : Except String ℚ :=
  strict_range v (-30) 30

/-- `Keithley6482Chnanel.speed_accuracy`: `strict_range` over `(0.01, 10)`. -/
def Keithley6482Chnanel.speed_accuracy_validator (v : ℚ) : Except String ℚ :=
  strict_range v (1/100) 10

/-- The adapter: the I/O channel, recorded as the command strings written. -/
structure Adapter where
  writes : List String
deriving DecidableEq

/-- Modelled from the spec: the property setter of `Instrument.control` /
`Instrument.setting` (pymeasure's common base class, not under src/) — the
validator runs first, and only a value it accepts is formatted into the
command string and transmitted to the adapter (one write per set).  A
rejected value raises, and the adapter is left untouched. -/
def instrSet (validator : ℚ → Except String ℚ) (fmt : ℚ → String)
    (ad : Adapter) (v : ℚ) : Except String Unit × Adapter :=
  match validator v with
  | Except.error e => (Except.error e, ad)
  | Except.ok v2 => (Except.ok (), { writes := ad.writes ++ [fmt v2] })

/-- A stand-in for the `"TO%i" % value` command formatting. -/
def fmtTO (v : ℚ) : String := "TO" ++ toString v

/-! ## Concrete instances for the witnesses -/

/-- A concrete color ramp standing in for the external viridis map. -/
def sampleCm : ℚ → Color := fun v => (v, v, v, 1)

/-- A 5×5 grid over `[0, 4] × [0, 4]`, step 1 on both axes. -/
def sampleRI : ResultsImage :=
  mkResultsImage "X" "Y" "Z" 0 4 1 0 4 1 sampleCm

/-- A 5×5×5 grid over `[0, 4]³`. -/
def sampleRI3 : Results3DImage :=
  mkResults3DImage "V" "X" "Y" "Z" 0 4 1 0 4 1 0 4 1 sampleCm

/-- A snapshot with a `Z` column and no rows: the final-point read raises
(IndexError), the row loop is empty. -/
def emptyZTable : Table := [("Z", [])]

/-- The value `ResultsImage.update_data` yields on `emptyZTable`. -/
def sampleUpdEmpty : ResultsImage × (ℚ × ℚ) :=
  match sampleRI.update_data emptyZTable with
  | Except.ok o => o
  | Except.error _ => (sampleRI, (1, 1))

/-- The value `Results3DImage.update_data` yields on `emptyZTable`. -/
def sampleUpd3Empty : Results3DImage × (ℚ × ℚ) :=
  match sampleRI3.update_data emptyZTable with
  | Except.ok o => o
  | Except.error _ => (sampleRI3, (1, 1))

/-- A two-row snapshot for the color-normalization witness. -/
def sampleTable2 : Table := [("Z", [1, 3]), ("X", [0, 1]), ("Y", [0, 0])]

/-- The value `ResultsImage.update_data` yields on `sampleTable2`. -/
def sampleUpd2 : ResultsImage × (ℚ × ℚ) :=
  match sampleRI.update_data sampleTable2 with
  | Except.ok o => o
  | Except.error _ => (sampleRI, (1, 1))

/-- A curve bound to columns `X` and `Y`, no forced reload. -/
def sampleCurve : ResultsCurve :=
  { x := "X", y := "Y", force_reload := false, shown := ([], []) }

/-- A snapshot with the two bound columns. -/
def sampleRes : Results := { data := [("X", [1, 2]), ("Y", [3, 4])] }

/-- A curve whose x binding names a column the snapshot does not have. -/
def badCurve : ResultsCurve :=
  { x := "B", y := "A", force_reload := false, shown := ([], []) }

/-- A snapshot with only a column `A`. -/
def resA : Results := { data := [("A", [1, 2])] }

/-- A curve whose y binding names a column the snapshot does not have
(its x binding exists). -/
def badCurveY : ResultsCurve :=
  { x := "A", y := "B", force_reload := false, shown := ([], []) }

/-! ## Helper lemmas -/

theorem npCeilSize_eq (start stop step : ℚ) :
    npCeilSize start stop step = ⌈(stop - start) / step⌉ + 1 := by
  rw [npCeilSize, intTrunc_intCast]

/-- One axis of `find_img_index`, rephrased as floor of the index plus a
half (rounding half up) for a positive step. -/
theorem clampIdx_eq (lo hi step : ℚ) (size : ℤ) (h : 0 < step) (v : ℚ) :
    (if lo ≤ v ∧ v ≤ hi then round_up ((v - lo) / step) else size - 1)
      = (if lo ≤ v ∧ v ≤ hi then ⌊(v - lo) / step + 1/2⌋ else size - 1) := by
  split
  case isTrue hin =>
    exact round_up_eq_floor_add_half _ (div_nonneg (sub_nonneg.2 hin.1) h.le)
  case isFalse => rfl

/-- One axis of `find_img_index` stays inside `[0, size - 1]` when the axis
is sized by `npCeilSize` from an ordered range and a positive step. -/
theorem axis_idx_bounds (lo hi step : ℚ) (size : ℤ)
    (hsize : size = npCeilSize lo hi step)
    (h1 : lo ≤ hi) (h2 : 0 < step) (v : ℚ) :
    0 ≤ (if lo ≤ v ∧ v ≤ hi then round_up ((v - lo) / step) else size - 1)
  ∧ (if lo ≤ v ∧ v ≤ hi then round_up ((v - lo) / step) else size - 1)
      ≤ size - 1 := by
  have hQ0 : 0 ≤ (hi - lo) / step := div_nonneg (sub_nonneg.2 h1) h2.le
  have hceil : 0 ≤ ⌈(hi - lo) / step⌉ := Int.ceil_nonneg hQ0
  have hsz : size = ⌈(hi - lo) / step⌉ + 1 := by rw [hsize, npCeilSize_eq]
  split
  case isTrue hin =>
    have hq0 : 0 ≤ (v - lo) / step := div_nonneg (sub_nonneg.2 hin.1) h2.le
    rw [round_up_eq_floor_add_half _ hq0]
    constructor
    · exact Int.floor_nonneg.2 (by linarith)
    · have hmono : (v - lo) / step ≤ (hi - lo) / step :=
        (div_le_div_iff_of_pos_right h2).2 (sub_le_sub_right hin.2 lo)
      have := Int.floor_le_floor
        (show (v - lo) / step + 1/2 ≤ (hi - lo) / step + 1/2 by linarith)
      have := floor_add_half_le_ceil ((hi - lo) / step)
      omega
  case isFalse => omega

/-- `foldl` of the last-writer accumulator, started from an arbitrary
accumulator. -/
theorem lastHit_foldl_acc (p : α → Bool) (l : List α) (acc : Option α) :
    l.foldl (fun a b => if p b then some b else a) acc
      = match lastHit p l with
        | some v => some v
        | none => acc := by
  induction l generalizing acc with
  | nil => rfl
  | cons a t ih =>
    rw [lastHit, List.foldl_cons, List.foldl_cons, ih, ih (if p a then some a else none)]
    cases ht : lastHit p t with
    | some v => rfl
    | none => cases hpa : p a <;> simp

/-- `lastHit` over a cons: a later hit wins, else the head decides. -/
theorem lastHit_cons (p : α → Bool) (a : α) (l : List α) :
    lastHit p (a :: l) = match lastHit p l with
      | some v => some v
      | none => if p a then some a else none := by
  rw [lastHit, List.foldl_cons, lastHit_foldl_acc]

/-- Pixel-level reading of the row-painting loop: a pixel holds the color of
the last row binned onto it, and is untouched when no row hits it. -/
theorem paintRows_apply (ri : ResultsImage) (zmin zmax : ℚ)
    (rows : List (ℚ × ℚ × ℚ)) (img : Img) (i j : ℤ) :
    paintRows ri zmin zmax rows img i j
      = match lastHit (fun r => decide (ri.find_img_index r.1 r.2.1 = (i, j))) rows with
        | some r => ri.colormap ((r.2.2 - zmin) / (zmax - zmin))
        | none => img i j := by
  induction rows generalizing img with
  | nil => rfl
  | cons r t ih =>
    have hstep : paintRows ri zmin zmax (r :: t) img
        = paintRows ri zmin zmax t
            (setPix img (ri.find_img_index r.1 r.2.1)
              (ri.colormap ((r.2.2 - zmin) / (zmax - zmin)))) := rfl
    rw [hstep, ih, lastHit_cons]
    cases ht : lastHit (fun r => decide (ri.find_img_index r.1 r.2.1 = (i, j))) t with
    | some v => rfl
    | none =>
      by_cases hr : ri.find_img_index r.1 r.2.1 = (i, j)
      · simp [setPix, hr]
      · have hc : ¬(i = (ri.find_img_index r.1 r.2.1).1
            ∧ j = (ri.find_img_index r.1 r.2.1).2) := fun hc =>
          hr (Prod.ext_iff.mpr ⟨hc.1.symm, hc.2.symm⟩)
        simp [setPix, hr, hc]

/-- `take` past a `set` at or beyond the taken prefix is unchanged. -/
theorem take_set_of_le (a : α) {n m : ℕ} (l : List α) (h : m ≤ n) :
    (l.set n a).take m = l.take m :=
  List.ext_getElem? fun i => by
    rw [List.getElem?_take, List.getElem?_take]
    split
    · rw [List.getElem?_set_ne (by omega)]
    · rfl

theorem strict_discrete_set_isOk (v : ℚ) (l : List ℚ) :
    (strict_discrete_set v l).isOk = true ↔ v ∈ l := by
  unfold strict_discrete_set
  split
  case isTrue h => exact iff_of_true rfl h
  case isFalse h => exact iff_of_false (by decide) h

theorem strict_range_isOk (v lo hi : ℚ) :
    (strict_range v lo hi).isOk = true ↔ lo ≤ v ∧ v ≤ hi := by
  unfold strict_range
  split
  case isTrue h => exact iff_of_true rfl h
  case isFalse h => exact iff_of_false (by decide) h

theorem mem_pyRange (lo hi : ℤ) (v : ℚ) :
    v ∈ pyRange lo hi ↔ ∃ n : ℤ, v = n ∧ lo ≤ n ∧ n < hi := by
  unfold pyRange
  simp only [List.mem_map, List.mem_range]
  constructor
  · rintro ⟨k, hk, rfl⟩
    exact ⟨lo + k, rfl, by omega, by omega⟩
  · rintro ⟨n, rfl, h1, h2⟩
    refine ⟨(n - lo).toNat, by omega, ?_⟩
    congr 1
    omega


/-- One buffer operation preserves `ptr ≤ capacity`. -/
theorem runOp_inv (c : BufferCurve) (op : BufOp) (h : c.ptr ≤ bufSize c) :
    (runOp c op).ptr ≤ bufSize (runOp c op) := by
  cases op with
  | prepare n => simp [runOp, BufferCurve.prepare, bufSize]
  | append x y =>
    simp only [runOp]
    unfold BufferCurve.append
    cases hb : c.buffer with
    | none => simpa [bufSize, hb] using h
    | some buf =>
      by_cases hfull : buf.size ≤ c.ptr
      · simpa [hfull, bufSize, hb] using h
      · simp [hfull, bufSize, Array.size_set]
        omega

theorem runOps_inv (ops : List BufOp) :
    ∀ c : BufferCurve, c.ptr ≤ bufSize c →
      (runOps c ops).ptr ≤ bufSize (runOps c ops) := by
  induction ops with
  | nil => intro c h; exact h
  | cons op t ih => intro c h; exact ih (runOp c op) (runOp_inv c op h)

/-! ## The claims -/

/-- C1: For every coordinate pair, `ResultsImage.find_img_index` rounds a
fractional index of exactly .5 (or more) up to the next integer (`⌊q + 1/2⌋`,
rounding half up), and for a coordinate outside the configured
`[start, end]` range of its axis it returns the last pixel index
(`size - 1`) for that axis; the same holds for each of the three axes of
`Results3DImage.find_img_index`. -/
theorem find_img_index_half_up_clamp (ri : ResultsImage) (ri3 : Results3DImage)
    (hx : 0 < ri.xstep) (hy : 0 < ri.ystep)
    (hx3 : 0 < ri3.xstep) (hy3 : 0 < ri3.ystep) (hz3 : 0 < ri3.zstep)
    (x y a b c : ℚ) :
    (ri.find_img_index x y).1
        = (if ri.xstart ≤ x ∧ x ≤ ri.xend
           then ⌊(x - ri.xstart) / ri.xstep + 1/2⌋ else ri.xsize - 1)
  ∧ (ri.find_img_index x y).2
        = (if ri.ystart ≤ y ∧ y ≤ ri.yend
           then ⌊(y - ri.ystart) / ri.ystep + 1/2⌋ else ri.ysize - 1)
  ∧ (ri3.find_img_index a b c).1
        = (if ri3.xstart ≤ a ∧ a ≤ ri3.xend
           then ⌊(a - ri3.xstart) / ri3.xstep + 1/2⌋ else ri3.xsize - 1)
  ∧ (ri3.find_img_index a b c).2.1
        = (if ri3.ystart ≤ b ∧ b ≤ ri3.yend
           then ⌊(b - ri3.ystart) / ri3.ystep + 1/2⌋ else ri3.ysize - 1)
  ∧ (ri3.find_img_index a b c).2.2
        = (if ri3.zstart ≤ c ∧ c ≤ ri3.zend
           then ⌊(c - ri3.zstart) / ri3.zstep + 1/2⌋ else ri3.zsize - 1) := by
  refine ⟨?_, ?_, ?_, ?_, ?_⟩
  · exact clampIdx_eq ri.xstart ri.xend ri.xstep ri.xsize hx x
  · exact clampIdx_eq ri.ystart ri.yend ri.ystep ri.ysize hy y
  · exact clampIdx_eq ri3.xstart ri3.xend ri3.xstep ri3.xsize hx3 a
  · exact clampIdx_eq ri3.ystart ri3.yend ri3.ystep ri3.ysize hy3 b
  · exact clampIdx_eq ri3.zstart ri3.zend ri3.zstep ri3.zsize hz3 c

/-- C1 witness: on the 5×5 sample grid (step 1), `x = 3/2` (fractional part
exactly .5) rounds up to index 2 and the out-of-range `y = 10` clamps to the
last pixel. -/
theorem find_img_index_half_up_clamp_witness :
    (0 : ℚ) < sampleRI.xstep
  ∧ (sampleRI.find_img_index (3/2) 10).1 = 2
  ∧ (sampleRI.find_img_index (3/2) 10).2 = sampleRI.ysize - 1
  ∧ (sampleRI3.find_img_index (1/2) (1/4) 5).1 = 1
  ∧ (sampleRI3.find_img_index (1/2) (1/4) 5).2.1 = 0
  ∧ (sampleRI3.find_img_index (1/2) (1/4) 5).2.2 = sampleRI3.zsize - 1 := by
  have h := find_img_index_half_up_clamp sampleRI sampleRI3
    (by decide) (by decide) (by decide) (by decide) (by decide)
    (3/2) 10 (1/2) (1/4) 5
  refine ⟨by decide, h.1.trans ?_, h.2.1.trans ?_, h.2.2.1.trans ?_,
    h.2.2.2.1.trans ?_, h.2.2.2.2.trans ?_⟩ <;>
    norm_num [sampleRI, sampleRI3, mkResultsImage, mkResults3DImage, npCeilSize, intTrunc]

/-- C9: assuming per-axis `start ≤ end` and `step > 0`, and the sizes as
`__init__` computes them, every index pair `ResultsImage.find_img_index`
returns satisfies `0 ≤ xidx ≤ xsize - 1` and `0 ≤ yidx ≤ ysize - 1`, so the
pixel write in `update_data` never indexes out of bounds. -/
theorem find_img_index_in_bounds (ri : ResultsImage)
    (hxs : ri.xsize = npCeilSize ri.xstart ri.xend ri.xstep)
    (hys : ri.ysize = npCeilSize ri.ystart ri.yend ri.ystep)
    (hx1 : ri.xstart ≤ ri.xend) (hx2 : 0 < ri.xstep)
    (hy1 : ri.ystart ≤ ri.yend) (hy2 : 0 < ri.ystep)
    (a b : ℚ) :
    0 ≤ (ri.find_img_index a b).1
  ∧ (ri.find_img_index a b).1 ≤ ri.xsize - 1
  ∧ 0 ≤ (ri.find_img_index a b).2
  ∧ (ri.find_img_index a b).2 ≤ ri.ysize - 1 := by
  have h1 := axis_idx_bounds ri.xstart ri.xend ri.xstep ri.xsize hxs hx1 hx2 a
  have h2 := axis_idx_bounds ri.ystart ri.yend ri.ystep ri.ysize hys hy1 hy2 b
  exact ⟨h1.1, h1.2, h2.1, h2.2⟩

/-- C9 witness: the bounds at a concrete grid, one coordinate far out of
range and one in range. -/
theorem find_img_index_in_bounds_witness :
    sampleRI.xstart ≤ sampleRI.xend
  ∧ (0 : ℚ) < sampleRI.xstep
  ∧ (0 ≤ (sampleRI.find_img_index 10 (5/2)).1
      ∧ (sampleRI.find_img_index 10 (5/2)).1 ≤ sampleRI.xsize - 1
      ∧ 0 ≤ (sampleRI.find_img_index 10 (5/2)).2
      ∧ (sampleRI.find_img_index 10 (5/2)).2 ≤ sampleRI.ysize - 1) :=
  ⟨by decide, by decide,
    find_img_index_in_bounds sampleRI rfl rfl
      (by decide) (by decide) (by decide) (by decide) 10 (5/2)⟩

/-- C3: for every instrument property with a validator, setting a value the
validator rejects raises the validation error before any adapter write: the
set fails and the adapter write log is unchanged (no command string is
transmitted). -/
theorem set_invalid_no_write (validator : ℚ → Except String ℚ)
    (fmt : ℚ → String) (ad : Adapter) (v : ℚ)
    (h : (validator v).isOk = false) :
    (instrSet validator fmt ad v).1.isOk = false
  ∧ (instrSet validator fmt ad v).2 = ad := by
  unfold instrSet
  cases hv : validator v with
  | error e => exact ⟨rfl, rfl⟩
  | ok v2 => rw [hv] at h; exact absurd h (by simp [Except.isOk, Except.toBool])

/-- C3 witness: `TF930.threshold_ac` at the rejected value 61 mV — nothing
is written to a fresh adapter. -/
theorem set_invalid_no_write_witness :
    (TF930.threshold_ac_validator 61).isOk = false
  ∧ (instrSet TF930.threshold_ac_validator fmtTO { writes := [] } 61).1.isOk = false
  ∧ (instrSet TF930.threshold_ac_validator fmtTO { writes := [] } 61).2
      = { writes := [] } := by
  have h := set_invalid_no_write TF930.threshold_ac_validator fmtTO
    { writes := [] } 61 (by decide)
  exact ⟨by decide, h.1, h.2⟩

/-- C4: each property's validator accepts exactly its in-range input:
`TF930.threshold_ac` exactly the integers −60..60, `TF930.threshold_dc`
exactly the integers −300..2100, `Keithley6482Chnanel.voltage` exactly the
rationals in [−30, 30] and `Keithley6482Chnanel.speed_accuracy` exactly
[0.01, 10]; everything else is rejected. -/
theorem validators_characterize (v : ℚ) :
    ((TF930.threshold_ac_validator v).isOk = true
      ↔ ∃ n : ℤ, v = n ∧ -60 ≤ n ∧ n ≤ 60)
  ∧ ((TF930.threshold_dc_validator v).isOk = true
      ↔ ∃ n : ℤ, v = n ∧ -300 ≤ n ∧ n ≤ 2100)
  ∧ ((Keithley6482Chnanel.voltage_validator v).isOk = true
      ↔ -30 ≤ v ∧ v ≤ 30)
  ∧ ((Keithley6482Chnanel.speed_accuracy_validator v).isOk = true
      ↔ 1/100 ≤ v ∧ v ≤ 10) := by
  refine ⟨?_, ?_, ?_, ?_⟩
  · rw [TF930.threshold_ac_validator, strict_discrete_set_isOk, mem_pyRange]
    exact exists_congr fun n => and_congr_right fun _ => by omega
  · rw [TF930.threshold_dc_validator, strict_discrete_set_isOk, mem_pyRange]
    exact exists_congr fun n => and_congr_right fun _ => by omega
  · rw [Keithley6482Chnanel.voltage_validator, strict_range_isOk]
  · rw [Keithley6482Chnanel.speed_accuracy_validator, strict_range_isOk]

/-- C5: the pixel grid of a freshly constructed `ResultsImage` (and
`Results3DImage`) has per-axis size `⌈(end − start) / step⌉ + 1`, exactly as
`__init__` computes it, and no `update_data` call ever changes the stored
dimensions. -/
theorem image_sizes_fixed (x y z var : String) (cm : ℚ → Color)
    (xs xe xst ys0 ye yst zs0 ze zst : ℚ) (data : Table) :
    (mkResultsImage x y z xs xe xst ys0 ye yst cm).xsize = ⌈(xe - xs) / xst⌉ + 1
  ∧ (mkResultsImage x y z xs xe xst ys0 ye yst cm).ysize = ⌈(ye - ys0) / yst⌉ + 1
  ∧ (mkResults3DImage var x y z xs xe xst ys0 ye yst zs0 ze zst cm).xsize
      = ⌈(xe - xs) / xst⌉ + 1
  ∧ (mkResults3DImage var x y z xs xe xst ys0 ye yst zs0 ze zst cm).ysize
      = ⌈(ye - ys0) / yst⌉ + 1
  ∧ (mkResults3DImage var x y z xs xe xst ys0 ye yst zs0 ze zst cm).zsize
      = ⌈(ze - zs0) / zst⌉ + 1
  ∧ (∀ (ri : ResultsImage) (out : ResultsImage × (ℚ × ℚ)),
      ri.update_data data = Except.ok out →
        out.1.xsize = ri.xsize ∧ out.1.ysize = ri.ysize)
  ∧ (∀ (ri3 : Results3DImage) (out : Results3DImage × (ℚ × ℚ)),
      ri3.update_data data = Except.ok out →
        out.1.xsize = ri3.xsize ∧ out.1.ysize = ri3.ysize
        ∧ out.1.zsize = ri3.zsize) := by
  refine ⟨npCeilSize_eq xs xe xst, npCeilSize_eq ys0 ye yst,
    npCeilSize_eq xs xe xst, npCeilSize_eq ys0 ye yst, npCeilSize_eq zs0 ze zst,
    ?_, ?_⟩
  · intro ri out h
    unfold ResultsImage.update_data at h
    cases hre : ri.refresh_pixels data with
    | error e => rw [hre] at h; exact absurd h (by simp)
    | ok img2 =>
      rw [hre] at h
      have hp := Except.ok.inj h
      subst hp
      exact ⟨rfl, rfl⟩
  · intro ri3 out h
    unfold Results3DImage.update_data at h
    cases hre : ri3.refresh_pixels data with
    | error e => rw [hre] at h; exact absurd h (by simp)
    | ok img2 =>
      rw [hre] at h
      have hp := Except.ok.inj h
      subst hp
      exact ⟨rfl, rfl, rfl⟩

/-- C5 witness: concrete updates (a two-row snapshot for the 2-D image, an
empty one for the 3-D image) leave the sample grids' sizes unchanged. -/
theorem image_sizes_fixed_witness :
    sampleRI.xsize = ⌈((4 : ℚ) - 0) / 1⌉ + 1
  ∧ sampleUpd2.1.xsize = sampleRI.xsize
  ∧ sampleUpd2.1.ysize = sampleRI.ysize
  ∧ sampleUpd3Empty.1.zsize = sampleRI3.zsize := by
  have h := image_sizes_fixed "X" "Y" "Z" "V" sampleCm 0 4 1 0 4 1 0 4 1
    sampleTable2
  have h3 := image_sizes_fixed "X" "Y" "Z" "V" sampleCm 0 4 1 0 4 1 0 4 1
    emptyZTable
  refine ⟨h.1, ?_, ?_, ?_⟩
  · exact (h.2.2.2.2.2.1 sampleRI sampleUpd2 rfl).1
  · exact (h.2.2.2.2.2.1 sampleRI sampleUpd2 rfl).2
  · exact (h3.2.2.2.2.2.2 sampleRI3 sampleUpd3Empty rfl).2.2

/-- C6: after `ResultsImage.update_data`, every pixel that some snapshot row
was binned onto holds the fixed color ramp applied to
`(z − zmin) / (zmax − zmin)` of the last such row, where `zmin`/`zmax` are
the min/max of the z column over the whole snapshot; untouched pixels keep
their previous value. -/
theorem image_pixel_color_normalized (ri : ResultsImage) (data : Table)
    (xs ys zs : List ℚ)
    (hx : getColumn data ri.x = Except.ok xs)
    (hy : getColumn data ri.y = Except.ok ys)
    (hz : getColumn data ri.z = Except.ok zs)
    (hn : ¬ nRows data = 0)
    (out : ResultsImage × (ℚ × ℚ))
    (hout : ri.update_data data = Except.ok out) (i j : ℤ) :
    out.1.img_data i j
      = match lastHit (fun r => decide (ri.find_img_index r.1 r.2.1 = (i, j)))
          (zipRows xs ys zs) with
        | some r =>
            ri.colormap ((r.2.2 - (zs.min?).getD 0)
              / ((zs.max?).getD 0 - (zs.min?).getD 0))
        | none => ri.img_data i j := by
  have hre : ri.refresh_pixels data
      = Except.ok (paintRows ri ((zs.min?).getD 0) ((zs.max?).getD 0)
          (zipRows xs ys zs) ri.img_data) := by
    unfold ResultsImage.refresh_pixels
    simp only [hz, hx, hy, if_neg hn]
  unfold ResultsImage.update_data at hout
  rw [hre] at hout
  have hp := Except.ok.inj hout
  subst hp
  exact paintRows_apply ri _ _ (zipRows xs ys zs) ri.img_data i j

/-- C6 witness: on the sample grid with snapshot rows (x, y, z) = (0, 0, 1)
and (1, 0, 3), the pixel binned from the second row holds
`cm((3 − 1)/(3 − 1)) = cm 1 = (1, 1, 1, 1)`. -/
theorem image_pixel_color_normalized_witness :
    getColumn sampleTable2 sampleRI.x = Except.ok [0, 1]
  ∧ ¬ nRows sampleTable2 = 0
  ∧ sampleUpd2.1.img_data 1 0 = (1, 1, 1, 1) := by
  have h := image_pixel_color_normalized sampleRI sampleTable2 [0, 1] [0, 0]
    [1, 3] (by rfl) (by rfl) (by rfl) (by decide) sampleUpd2 rfl 1 0
  refine ⟨by rfl, by decide, h.trans ?_⟩
  norm_num [sampleRI, mkResultsImage, sampleCm, lastHit, zipRows,
    ResultsImage.find_img_index, ResultsImage.colormap, round_up, pyMod1,
    intTrunc]

/-- C7: whenever the repaint part of `update_data` succeeds, `update_data`
itself succeeds — an exception while reading the last (x, y) sample on the
final-point emit path is caught, never propagated — and the emitted pair is
the last sample, or `(0, 0)` substituted when reading it raised; likewise
for `Results3DImage.update_data`. -/
theorem update_emit_catch (ri : ResultsImage) (ri3 : Results3DImage)
    (data : Table)
    (h2 : (ri.refresh_pixels data).isOk = true)
    (h3 : (ri3.refresh_pixels data).isOk = true) :
    (ri.update_data data).isOk = true
  ∧ (ri3.update_data data).isOk = true
  ∧ (∀ out, ri.update_data data = Except.ok out →
      out.2 = emitted_of data ri.x ri.y)
  ∧ (∀ out, ri3.update_data data = Except.ok out →
      out.2 = emitted_of data ri3.x ri3.y)
  ∧ (∀ e, lastSampleRead data ri.x ri.y = Except.error e →
      emitted_of data ri.x ri.y = (0, 0))
  ∧ (∀ e, lastSampleRead data ri3.x ri3.y = Except.error e →
      emitted_of data ri3.x ri3.y = (0, 0)) := by
  obtain ⟨img2, hre⟩ : ∃ img2, ri.refresh_pixels data = Except.ok img2 := by
    cases hh : ri.refresh_pixels data with
    | ok v => exact ⟨v, rfl⟩
    | error e =>
      rw [hh] at h2; exact absurd h2 (by simp [Except.isOk, Except.toBool])
  obtain ⟨img3, hre3⟩ : ∃ img3, ri3.refresh_pixels data = Except.ok img3 := by
    cases hh : ri3.refresh_pixels data with
    | ok v => exact ⟨v, rfl⟩
    | error e =>
      rw [hh] at h3; exact absurd h3 (by simp [Except.isOk, Except.toBool])
  refine ⟨?_, ?_, ?_, ?_, ?_, ?_⟩
  · unfold ResultsImage.update_data
    rw [hre]
    rfl
  · unfold Results3DImage.update_data
    rw [hre3]
    rfl
  · intro out hout
    unfold ResultsImage.update_data at hout
    rw [hre] at hout
    have hp := Except.ok.inj hout
    subst hp
    rfl
  · intro out hout
    unfold Results3DImage.update_data at hout
    rw [hre3] at hout
    have hp := Except.ok.inj hout
    subst hp
    rfl
  · intro e he
    unfold emitted_of
    rw [he]
  · intro e he
    unfold emitted_of
    rw [he]

/-- C7 witness: on a snapshot with a `Z` column and no rows, the repaint
succeeds, the last-sample read raises, and both widgets emit `(0, 0)`. -/
theorem update_emit_catch_witness :
    (sampleRI.refresh_pixels emptyZTable).isOk = true
  ∧ sampleUpdEmpty.2 = (0, 0)
  ∧ sampleUpd3Empty.2 = (0, 0) := by
  have h := update_emit_catch sampleRI sampleRI3 emptyZTable
    (by decide) (by decide)
  refine ⟨by decide, ?_, ?_⟩
  · exact (h.2.2.1 sampleUpdEmpty rfl).trans (by decide)
  · exact (h.2.2.2.1 sampleUpd3Empty rfl).trans (by decide)

/-- C8: `ResultsCurve.update_data` re-sets the curve's data to the complete
x and y columns of the current snapshot, whatever was shown before, and
reloads the results exactly when `force_reload` is set: with it unset the
returned results object is the untouched input, and the update does not
depend on the reload function at all. -/
theorem curve_update_full_reset (reload reload2 : Results → Results)
    (c : ResultsCurve) (res : Results) (xs ys : List ℚ)
    (hx : getColumn (if c.force_reload then reload res else res).data c.x
      = Except.ok xs)
    (hy : getColumn (if c.force_reload then reload res else res).data c.y
      = Except.ok ys) :
    ResultsCurve.update_data reload c res
      = Except.ok ({ c with shown := (xs, ys) },
          if c.force_reload then reload res else res)
  ∧ (c.force_reload = false →
      ResultsCurve.update_data reload c res
        = ResultsCurve.update_data reload2 c res) := by
  constructor
  · unfold ResultsCurve.update_data
    rw [hx, hy]
  · intro hfr
    unfold ResultsCurve.update_data
    rw [hfr]
    simp

/-- C8 witness: a concrete snapshot, with `force_reload` unset and two
different reload functions; the shown data is the complete columns and the
results object comes back untouched. -/
theorem curve_update_full_reset_witness :
    getColumn (if sampleCurve.force_reload then id sampleRes else sampleRes).data
        sampleCurve.x = Except.ok [1, 2]
  ∧ ResultsCurve.update_data id sampleCurve sampleRes
      = Except.ok ({ sampleCurve with shown := ([1, 2], [3, 4]) },
          if sampleCurve.force_reload then id sampleRes else sampleRes) := by
  have h := curve_update_full_reset id (fun _ => { data := [] }) sampleCurve
    sampleRes [1, 2] [3, 4] (by rfl) (by rfl)
  exact ⟨by rfl, h.1⟩

/-- C2 counterexample: binding the x axis to column "B" over a snapshot
holding only column "A" makes `ResultsCurve.update_data` raise (an uncaught
KeyError), contradicting "binding a non-existent column never raises an
uncaught error". -/
theorem curve_update_missing_column_cex :
    (ResultsCurve.update_data id badCurve resA).isOk = false := by decide

/-- C2 (amended): when a display axis binding — either the x or the y
binding — names a column that does not exist in the snapshot,
`ResultsCurve.update_data` raises an uncaught KeyError from the column
lookup rather than falling back to a default. -/
theorem curve_update_missing_column_raises (reload : Results → Results)
    (c : ResultsCurve) (res : Results)
    (h : (getColumn (if c.force_reload then reload res else res).data
          c.x).isOk = false
       ∨ (getColumn (if c.force_reload then reload res else res).data
          c.y).isOk = false) :
    (ResultsCurve.update_data reload c res).isOk = false := by
  unfold ResultsCurve.update_data
  cases hgx : getColumn (if c.force_reload then reload res else res).data c.x with
  | error e => rfl
  | ok xs =>
    cases hgy : getColumn (if c.force_reload then reload res else res).data c.y with
    | error e => rfl
    | ok ys =>
      rcases h with h | h
      · rw [hgx] at h
        exact absurd h (by simp [Except.isOk, Except.toBool])
      · rw [hgy] at h
        exact absurd h (by simp [Except.isOk, Except.toBool])

/-- C2 witness: the amended claim at concrete bad bindings, on each axis: a
curve with a missing x column and a curve with a missing y column both make
`update_data` raise. -/
theorem curve_update_missing_column_raises_witness :
    (getColumn (if badCurve.force_reload then id resA else resA).data
      badCurve.x).isOk = false
  ∧ (ResultsCurve.update_data id badCurve resA).isOk = false
  ∧ (getColumn (if badCurveY.force_reload then id resA else resA).data
      badCurveY.y).isOk = false
  ∧ (ResultsCurve.update_data id badCurveY resA).isOk = false :=
  ⟨by decide,
    curve_update_missing_column_raises id badCurve resA (Or.inl (by decide)),
    by decide,
    curve_update_missing_column_raises id badCurveY resA (Or.inr (by decide))⟩

/-- C10: `BufferCurve.append` raises when the buffer is unprepared or full,
leaving the state (and write pointer) unchanged; a successful append
increments the pointer by exactly one and displays only the first
ptr-before-increment points, excluding the point just appended; and after
any sequence of prepare/append operations the pointer satisfies
`0 ≤ ptr ≤ buffer size` (the lower bound holds by the pointer's type). -/
theorem buffer_append_invariant :
    (∀ (c : BufferCurve) (x y : ℚ),
        (c.buffer = none →
          (c.append x y).1.isOk = false ∧ (c.append x y).2 = c)
      ∧ (∀ b, c.buffer = some b → b.size ≤ c.ptr →
          (c.append x y).1.isOk = false ∧ (c.append x y).2 = c)
      ∧ ((c.append x y).1.isOk = true →
          (c.append x y).2.ptr = c.ptr + 1
          ∧ ∀ b, c.buffer = some b →
              (c.append x y).2.shown = b.toList.take c.ptr))
  ∧ (∀ ops : List BufOp,
      (runOps initBufferCurve ops).ptr
        ≤ bufSize (runOps initBufferCurve ops)) := by
  refine ⟨fun c x y => ⟨?_, ?_, ?_⟩,
    fun ops => runOps_inv ops initBufferCurve (by decide)⟩
  · intro hb
    simp [BufferCurve.append, hb, Except.isOk, Except.toBool]
  · intro b hb hfull
    simp [BufferCurve.append, hb, hfull, Except.isOk, Except.toBool]
  · intro hok
    cases hb : c.buffer with
    | none =>
      rw [BufferCurve.append] at hok
      simp [hb, Except.isOk, Except.toBool] at hok
    | some buf =>
      by_cases hfull : buf.size ≤ c.ptr
      · rw [BufferCurve.append] at hok
        simp [hb, hfull, Except.isOk, Except.toBool] at hok
      · constructor
        · simp [BufferCurve.append, hb, hfull]
        · intro b hb2
          have hbb : buf = b := Option.some.inj hb2
          subst hbb
          simp [BufferCurve.append, hb, hfull]
          exact take_set_of_le _ _ le_rfl

/-- C10 witness: prepare a 2-slot buffer and append once: the append
succeeds, the pointer goes 0 → 1, the display excludes the new point, and
the pointer stays within the capacity along the whole run. -/
theorem buffer_append_invariant_witness :
    ((initBufferCurve.prepare 2).append 1 2).1.isOk = true
  ∧ ((initBufferCurve.prepare 2).append 1 2).2.ptr
      = (initBufferCurve.prepare 2).ptr + 1
  ∧ ((initBufferCurve.prepare 2).append 1 2).2.shown = []
  ∧ (runOps initBufferCurve [BufOp.prepare 2, BufOp.append 1 2]).ptr
      ≤ bufSize (runOps initBufferCurve [BufOp.prepare 2, BufOp.append 1 2]) := by
  have h := buffer_append_invariant
  have hs := (h.1 (initBufferCurve.prepare 2) 1 2).2.2 (by decide)
  exact ⟨by decide, hs.1,
    (hs.2 (Array.mkArray 2 (0, 0)) rfl).trans (by decide),
    h.2 [BufOp.prepare 2, BufOp.append 1 2]⟩
